import Mathlib

/-!
# Verification of the descam_web streaming-session core

A shallow embedding of the real-time Gemini streaming session of descam_web
(`GeminiLiveSession`, in both its SDK-based and WebSocket-based variants), the
text-accumulation/flush logic of `handleServerMessage`, the PCM audio sample
conversion of `VideoRecorder`, and the TTS-rate clamping from the storage
module, together with theorems about the properties stated in the spec.

JavaScript strings are modelled as lists of characters; `String.prototype.trim`
is modelled by dropping whitespace characters from both ends.  Timers
(`setTimeout` / `clearTimeout`) are modelled by an explicit deadline stored in
the session state, and the single-threaded event loop is modelled by a `steps`
function that processes timed inbound messages in order, firing the pending
timer whenever its deadline has been reached.
-/

namespace Descam

/-- JavaScript strings, modelled as lists of characters. -/
abbrev Str := List Char

/-- The whitespace test used by trimming. -/
def isWS (c : Char) : Bool := c.isWhitespace

/-- Model of `String.prototype.trim`: drop whitespace from both ends. -/
def trim (s : Str) : Str :=
  ((s.dropWhile isWS).reverse.dropWhile isWS).reverse

theorem trim_eq_nil_iff (s : Str) : trim s = [] ↔ ∀ c ∈ s, isWS c := by
  unfold trim
  rw [List.reverse_eq_nil_iff, List.dropWhile_eq_nil_iff]
  constructor
  · intro h c hc
    have hsplit := List.takeWhile_append_dropWhile (p := isWS) (l := s)
    rw [← hsplit] at hc
    rcases List.mem_append.mp hc with h1 | h2
    · exact List.mem_takeWhile_imp h1
    · exact h c (List.mem_reverse.mpr h2)
  · intro h c hc
    exact h c ((List.dropWhile_sublist _).mem (List.mem_reverse.mp hc))

theorem trim_append_pos {a b : Str} (h : 0 < (trim a).length ∨ 0 < (trim b).length) :
    0 < (trim (a ++ b)).length := by
  rcases Nat.eq_zero_or_pos (trim (a ++ b)).length with hz | hp
  · exfalso
    have hnil : trim (a ++ b) = [] := List.length_eq_zero.mp hz
    have hall := (trim_eq_nil_iff _).mp hnil
    rcases h with ha | hb
    · have : trim a = [] := (trim_eq_nil_iff _).mpr
        (fun c hc => hall c (List.mem_append.mpr (Or.inl hc)))
      simp [this] at ha
    · have : trim b = [] := (trim_eq_nil_iff _).mpr
        (fun c hc => hall c (List.mem_append.mpr (Or.inr hc)))
      simp [this] at hb
  · exact hp

theorem mem_trim_of_not_ws {c : Char} {s : Str} (hc : c ∈ s) (hw : isWS c = false) :
    c ∈ trim s := by
  unfold trim
  rw [List.mem_reverse]
  have step : ∀ (l : List Char), c ∈ l → c ∈ l.dropWhile isWS := by
    intro l hl
    have hsplit := List.takeWhile_append_dropWhile (p := isWS) (l := l)
    rw [← hsplit] at hl
    rcases List.mem_append.mp hl with h1 | h2
    · exact absurd (List.mem_takeWhile_imp h1) (by simp [hw])
    · exact h2
  exact step _ (List.mem_reverse.mpr (step _ hc))

theorem trim_trim_pos {s : Str} (h : 0 < (trim s).length) :
    0 < (trim (trim s)).length := by
  rcases Nat.eq_zero_or_pos (trim (trim s)).length with hz | hp
  · exfalso
    have hnil : trim (trim s) = [] := List.length_eq_zero.mp hz
    have hall := (trim_eq_nil_iff (trim s)).mp hnil
    have hne : trim s ≠ [] := by
      intro hcon; rw [hcon] at h; simp at h
    have hnotall : ¬ ∀ c ∈ s, isWS c := fun hca => hne ((trim_eq_nil_iff s).mpr hca)
    push_neg at hnotall
    obtain ⟨c, hcs, hcw⟩ := hnotall
    have hw : isWS c = false := by
      cases hws : isWS c
      · rfl
      · exact absurd hws hcw
    have hmem := mem_trim_of_not_ws hcs hw
    have hmust := hall c hmem
    rw [hw] at hmust
    exact Bool.false_ne_true hmust
  · exact hp

/-! ## Inbound server messages

The fields of `ServerMessage` are exactly the pieces of the SDK message object
that `GeminiLiveSession.handleServerMessage`, `isTurnComplete` and
`extractErrorMessage` read (part_005).  Optional fields model possibly-absent
JavaScript properties. -/

/-- An object-shaped error candidate: the fields read by `extractErrorMessage`. -/
structure ErrObj where
  message : Option Str
  details : Option Str
  statusMessage : Option Str
  code : Option Str
  status : Option Str
deriving DecidableEq

/-- An error payload: either a plain string or an object. -/
inductive ErrPayload where
  | str (s : Str)
  | obj (o : ErrObj)
deriving DecidableEq

/-- A `status` object carried by `serverContent.modelResponse.status`:
its `state` field and its view as an error candidate. -/
structure StatusVal where
  state : Option Str
  payload : ErrPayload
deriving DecidableEq

/-- `serverContent.modelResponse` / `realtimeOutput.modelResponse`. -/
structure ModelResponse where
  error : Option ErrPayload
  status : Option StatusVal
deriving DecidableEq

/-- `serverContent`: the fields read by the session. `realtimeOutputEvent`
models `serverContent.realtimeOutput?.event`. -/
structure ServerContent where
  event : Option Str
  realtimeOutputEvent : Option Str
  error : Option ErrPayload
  modelResponse : Option ModelResponse
deriving DecidableEq

/-- `realtimeOutput`: the fields read by the session. -/
structure RealtimeOutput where
  event : Option Str
  error : Option ErrPayload
  modelResponse : Option ModelResponse
deriving DecidableEq

/-- An inbound message, restricted to the fields the session reads. -/
structure ServerMessage where
  text : Option Str
  turnComplete : Bool
  serverContent : Option ServerContent
  realtimeOutput : Option RealtimeOutput
  serverEvent : Option Str
  toolCall : Bool
  setupComplete : Bool
  error : Option ErrPayload
  serverError : Option ErrPayload
deriving DecidableEq

/-- The marker string tested by `isTurnComplete`. -/
def TURN_COMPLETE : Str := "TURN_COMPLETE".toList

/-- `GeminiLiveSession.isTurnComplete` (part_005): the ordered multi-shape
turn-complete check. -/
def isTurnComplete (response : ServerMessage) : Bool :=
  response.turnComplete ||
  (match response.serverContent with
   | some sc => sc.event == some TURN_COMPLETE
   | none => false) ||
  (match response.realtimeOutput with
   | some ro => ro.event == some TURN_COMPLETE
   | none => false) ||
  (match response.serverContent with
   | some sc => sc.realtimeOutputEvent == some TURN_COMPLETE
   | none => false) ||
  (response.serverEvent == some TURN_COMPLETE)

/-! ## The text accumulator -/

/-- The idle-flush delay used by `handleServerMessage` (300 ms). -/
def IDLE_DELAY : Nat := 300

/-- The session state relevant to text accumulation: the buffer
(`this.accumulatedText`), the pending flush timer modelled by its absolute
deadline (`this.textAccumulationTimer`), and the calls made so far to the
`onMessage` and `onError` sinks, oldest first. -/
structure AccState where
  accumulatedText : Str
  textAccumulationTimer : Option Nat
  emitted : List Str
  errors : List Str
deriving DecidableEq

/-- The `setTimeout` callback scheduled by `handleServerMessage` (the idle
flush): if the buffer is non-blank, emit its trimmed contents and clear the
buffer.  Once fired the timer is no longer pending, so the deadline is
cleared in both branches. -/
def flushTimerFire (s : AccState) : AccState :=
  if 0 < (trim s.accumulatedText).length then
    { s with accumulatedText := [], textAccumulationTimer := none,
             emitted := s.emitted ++ [trim s.accumulatedText] }
  else { s with textAccumulationTimer := none }

/-- `GeminiLiveSession.handleServerMessage` (part_005) at time `now`:
append a non-blank text fragment to the buffer and (re)schedule the idle
flush at `now + 300`; then, if the turn is complete and the buffer is
non-blank, cancel the timer and emit the trimmed buffer immediately.
The `toolCall` / `setupComplete` branches only log and are omitted. -/
def handleServerMessage (now : Nat) (message : ServerMessage) (s : AccState) :
    AccState :=
  let text := message.text
  let turnComplete := isTurnComplete message
  let s1 :=
    match text with
    | some t =>
        if 0 < (trim t).length then
          { s with accumulatedText := s.accumulatedText ++ t,
                   textAccumulationTimer := some (now + IDLE_DELAY) }
        else s
    | none => s
  if turnComplete = true ∧ 0 < (trim s1.accumulatedText).length then
    { s1 with accumulatedText := [], textAccumulationTimer := none,
              emitted := s1.emitted ++ [trim s1.accumulatedText] }
  else s1

/-- Fire the pending idle-flush timer if its deadline has been reached by
time `t`. -/
def fireIfDue (t : Nat) (s : AccState) : AccState :=
  match s.textAccumulationTimer with
  | some deadline => if deadline ≤ t then flushTimerFire s else s
  | none => s

/-- Process timed inbound messages in order on the single-threaded event
loop: before each message is handled, the pending timer fires if its
deadline has passed. -/
def steps (s : AccState) : List (Nat × ServerMessage) → AccState
  | [] => s
  | (t, m) :: rest => steps (handleServerMessage t m (fireIfDue t s)) rest

/-- The session's initial accumulator state. -/
def initialAccState : AccState := ⟨[], none, [], []⟩

/-- The observable accumulator state at time `horizon`: all messages that
have arrived by then are processed, and the pending timer fires if its
deadline has been reached. -/
def run (trace : List (Nat × ServerMessage)) (horizon : Nat) : AccState :=
  fireIfDue horizon (steps initialAccState (trace.filter (fun p => p.1 ≤ horizon)))

/-- The sequence of Description Events delivered to `onMessage` by time `t`. -/
def emittedUpTo (trace : List (Nat × ServerMessage)) (t : Nat) : List Str :=
  (run trace t).emitted

/-- A message carrying nothing at all. -/
def blankMsg : ServerMessage :=
  ⟨none, false, none, none, none, false, false, none, none⟩

/-- A content-fragment message: text only. -/
def fragMsg (t : Str) : ServerMessage := { blankMsg with text := some t }

/-- A turn-complete message, optionally carrying a trailing fragment. -/
def finalMsg (gOpt : Option Str) : ServerMessage :=
  { blankMsg with text := gOpt, turnComplete := true }

/-- Timed fragments as timed messages. -/
def msgsOf (fs : List (Nat × Str)) : List (Nat × ServerMessage) :=
  fs.map (fun p => (p.1, fragMsg p.2))

theorem isTurnComplete_fragMsg (t : Str) : isTurnComplete (fragMsg t) = false := rfl

theorem isTurnComplete_finalMsg (gOpt : Option Str) :
    isTurnComplete (finalMsg gOpt) = true := rfl

/-- Each fragment arrives strictly before the idle-flush deadline pending at
its arrival; each arrival resets the deadline to arrival time + 300. -/
def withinIdle : List (Nat × Str) → Option Nat → Bool
  | [], _ => true
  | (t, _) :: rest, none => withinIdle rest (some (t + IDLE_DELAY))
  | (t, _) :: rest, some d => decide (t < d) && withinIdle rest (some (t + IDLE_DELAY))

/-- The deadline pending after a list of fragments has been appended. -/
def finalDeadline : List (Nat × Str) → Option Nat → Option Nat
  | [], d => d
  | (t, _) :: rest, _ => finalDeadline rest (some (t + IDLE_DELAY))

theorem fireIfDue_of_none {t : Nat} {s : AccState}
    (h : s.textAccumulationTimer = none) : fireIfDue t s = s := by
  unfold fireIfDue
  rw [h]

theorem fireIfDue_of_notdue {t d : Nat} {s : AccState}
    (h : s.textAccumulationTimer = some d) (hlt : t < d) : fireIfDue t s = s := by
  unfold fireIfDue
  rw [h]
  exact if_neg (by omega)

theorem handleServerMessage_fragMsg (now : Nat) (f : Str) (s : AccState)
    (h : 0 < (trim f).length) :
    handleServerMessage now (fragMsg f) s =
      { s with accumulatedText := s.accumulatedText ++ f,
               textAccumulationTimer := some (now + IDLE_DELAY) } := by
  unfold handleServerMessage
  simp [fragMsg, blankMsg, isTurnComplete, h]

theorem steps_fragments (fs : List (Nat × Str)) :
    ∀ (s : AccState),
      (∀ p ∈ fs, 0 < (trim p.2).length) →
      withinIdle fs s.textAccumulationTimer = true →
      steps s (msgsOf fs) =
        { s with accumulatedText := fs.foldl (fun a p => a ++ p.2) s.accumulatedText,
                 textAccumulationTimer := finalDeadline fs s.textAccumulationTimer } := by
  induction fs with
  | nil => intro s _ _; rfl
  | cons p rest ih =>
    intro s hf hok
    obtain ⟨t, f⟩ := p
    have hfire : fireIfDue t s = s := by
      cases htm : s.textAccumulationTimer with
      | none => exact fireIfDue_of_none htm
      | some d =>
        rw [htm] at hok
        have hlt : t < d := by
          have hdec := ((Bool.and_eq_true _ _).mp hok).1
          exact of_decide_eq_true hdec
        exact fireIfDue_of_notdue htm hlt
    have hstep : steps s (msgsOf ((t, f) :: rest)) =
        steps (handleServerMessage t (fragMsg f) (fireIfDue t s)) (msgsOf rest) := rfl
    rw [hstep, hfire, handleServerMessage_fragMsg t f s (hf (t, f) (List.mem_cons_self _ _))]
    have hok' : withinIdle rest (some (t + IDLE_DELAY)) = true := by
      cases htm : s.textAccumulationTimer with
      | none => rw [htm] at hok; exact hok
      | some d =>
        rw [htm] at hok
        exact ((Bool.and_eq_true _ _).mp hok).2
    have hrec := ih { s with accumulatedText := s.accumulatedText ++ f,
                             textAccumulationTimer := some (t + IDLE_DELAY) }
      (fun q hq => hf q (List.mem_cons_of_mem _ hq)) hok'
    rw [hrec]
    cases htm : s.textAccumulationTimer <;> rfl

theorem steps_append (l1 l2 : List (Nat × ServerMessage)) :
    ∀ s, steps s (l1 ++ l2) = steps (steps s l1) l2 := by
  induction l1 with
  | nil => intro s; rfl
  | cons p rest ih =>
    intro s
    obtain ⟨t, m⟩ := p
    exact ih (handleServerMessage t m (fireIfDue t s))

theorem trim_foldl_pos (fs : List (Nat × Str)) :
    ∀ init : Str,
      (0 < (trim init).length ∨ ∃ p ∈ fs, 0 < (trim p.2).length) →
      0 < (trim (fs.foldl (fun a p => a ++ p.2) init)).length := by
  induction fs with
  | nil =>
    intro init h
    rcases h with h | ⟨p, hp, _⟩
    · exact h
    · exact absurd hp (List.not_mem_nil p)
  | cons q rest ih =>
    intro init h
    show 0 < (trim (rest.foldl (fun a p => a ++ p.2) (init ++ q.2))).length
    apply ih
    rcases h with h | ⟨p, hp, hpos⟩
    · exact Or.inl (trim_append_pos (Or.inl h))
    · rcases List.mem_cons.mp hp with rfl | hmem
      · exact Or.inl (trim_append_pos (Or.inr hpos))
      · exact Or.inr ⟨p, hmem, hpos⟩

theorem handleServerMessage_finalMsg (now : Nat) (gOpt : Option Str) (s : AccState)
    (hg : gOpt.all (fun g => decide (0 < (trim g).length)) = true)
    (hpos : 0 < (trim (s.accumulatedText ++ gOpt.getD [])).length) :
    handleServerMessage now (finalMsg gOpt) s =
      { accumulatedText := [], textAccumulationTimer := none,
        emitted := s.emitted ++ [trim (s.accumulatedText ++ gOpt.getD [])],
        errors := s.errors } := by
  cases gOpt with
  | none =>
    have hpos' : 0 < (trim s.accumulatedText).length := by simpa using hpos
    have hne : trim s.accumulatedText ≠ [] := List.length_pos.mp hpos'
    unfold handleServerMessage
    simp [finalMsg, blankMsg, isTurnComplete, hpos', hne]
  | some g =>
    have hgp : 0 < (trim g).length := of_decide_eq_true (by simpa using hg)
    have hpos' : 0 < (trim (s.accumulatedText ++ g)).length := by simpa using hpos
    have hne : trim (s.accumulatedText ++ g) ≠ [] := List.length_pos.mp hpos'
    unfold handleServerMessage
    simp [finalMsg, blankMsg, isTurnComplete, hgp, hpos', hne]

/-- Whether time `t` lies strictly before an optional deadline. -/
def beforeDeadline (t : Nat) : Option Nat → Bool
  | some d => decide (t < d)
  | none => true

/-- C1 (amended): if every message of the turn arrives strictly before the
idle-flush deadline pending at its arrival, then delivering non-blank
fragments followed by a turn-complete message (possibly carrying a trailing
fragment) produces exactly one Description Event, equal to the trimmed
concatenation of all fragments in arrival order, at every observation time
from the marker onwards. -/
theorem turn_flush_exactly_once (fs : List (Nat × Str)) (tlast : Nat)
    (gOpt : Option Str)
    (hf : ∀ p ∈ fs, 0 < (trim p.2).length)
    (hg : gOpt.all (fun g => decide (0 < (trim g).length)) = true)
    (hok : withinIdle fs none = true)
    (hlast : beforeDeadline tlast (finalDeadline fs none) = true)
    (hbound : ∀ p ∈ fs, p.1 ≤ tlast)
    (hne : fs ≠ [] ∨ gOpt ≠ none)
    (h : Nat) (hh : tlast ≤ h) :
    emittedUpTo (msgsOf fs ++ [(tlast, finalMsg gOpt)]) h =
      [trim (fs.foldl (fun a p => a ++ p.2) [] ++ gOpt.getD [])] := by
  have hfil : (msgsOf fs ++ [(tlast, finalMsg gOpt)]).filter
      (fun p => decide (p.1 ≤ h)) = msgsOf fs ++ [(tlast, finalMsg gOpt)] := by
    apply List.filter_eq_self.mpr
    intro a ha
    rcases List.mem_append.mp ha with h1 | h2
    · obtain ⟨q, hq, rfl⟩ := List.mem_map.mp h1
      exact decide_eq_true (le_trans (hbound q hq) hh)
    · rw [List.mem_singleton.mp h2]
      exact decide_eq_true hh
  have hpre : steps initialAccState (msgsOf fs) =
      { accumulatedText := fs.foldl (fun a p => a ++ p.2) [],
        textAccumulationTimer := finalDeadline fs none,
        emitted := [], errors := [] } := by
    have hsf := steps_fragments fs initialAccState hf hok
    simpa [initialAccState] using hsf
  have hpos : 0 < (trim (fs.foldl (fun a p => a ++ p.2) ([] : Str) ++
      gOpt.getD [])).length := by
    rcases hne with hfs | hgo
    · apply trim_append_pos
      left
      apply trim_foldl_pos
      right
      cases fs with
      | nil => exact absurd rfl hfs
      | cons q rest => exact ⟨q, List.mem_cons_self _ _, hf q (List.mem_cons_self _ _)⟩
    · apply trim_append_pos
      right
      cases gOpt with
      | none => exact absurd rfl hgo
      | some g => exact of_decide_eq_true (by simpa using hg)
  show (run (msgsOf fs ++ [(tlast, finalMsg gOpt)]) h).emitted = _
  unfold run
  rw [hfil, steps_append, hpre]
  have hfire : fireIfDue tlast
      ({ accumulatedText := fs.foldl (fun a p => a ++ p.2) [],
         textAccumulationTimer := finalDeadline fs none,
         emitted := [], errors := [] } : AccState) =
      { accumulatedText := fs.foldl (fun a p => a ++ p.2) [],
        textAccumulationTimer := finalDeadline fs none,
        emitted := [], errors := [] } := by
    cases hdl : finalDeadline fs none with
    | none => exact fireIfDue_of_none rfl
    | some d =>
      rw [hdl] at hlast
      exact fireIfDue_of_notdue rfl (of_decide_eq_true hlast)
  have hstep1 : steps
      ({ accumulatedText := fs.foldl (fun a p => a ++ p.2) [],
         textAccumulationTimer := finalDeadline fs none,
         emitted := [], errors := [] } : AccState) [(tlast, finalMsg gOpt)] =
      handleServerMessage tlast (finalMsg gOpt) (fireIfDue tlast
        { accumulatedText := fs.foldl (fun a p => a ++ p.2) [],
          textAccumulationTimer := finalDeadline fs none,
          emitted := [], errors := [] }) := rfl
  rw [hstep1, hfire, handleServerMessage_finalMsg tlast gOpt _ hg hpos]
  rw [fireIfDue_of_none rfl]
  simp

/-- C1 counterexample trace: fragment `"A"` at 0 ms, then a message at 400 ms
carrying fragment `"B"` together with the turn-complete marker. -/
def traceLateB : List (Nat × ServerMessage) :=
  msgsOf [(0, "A".toList)] ++ [(400, finalMsg (some "B".toList))]

/-- C1 counterexample: with a 400 ms gap the idle timer flushes `"A"` before
the marker message arrives, so two Description Events are emitted and neither
equals the trimmed concatenation `"AB"`. -/
theorem accumulator_double_flush :
    emittedUpTo traceLateB 400 = ["A".toList, "B".toList] ∧
    emittedUpTo traceLateB 400 ≠ [trim ("A".toList ++ "B".toList)] := by
  constructor
  · decide
  · decide

/-- C1 witness trace data. -/
theorem turn_flush_exactly_once_witness :
    emittedUpTo (msgsOf [(0, "A cat".toList), (100, " sitting".toList)] ++
        [(150, finalMsg (some "!".toList))]) 500 =
      ["A cat sitting!".toList] := by
  rw [turn_flush_exactly_once [(0, "A cat".toList), (100, " sitting".toList)] 150
    (some "!".toList) (by decide) (by decide) (by decide) (by decide) (by decide)
    (by decide) 500 (by decide)]
  decide

/-- The C2 trace: fragment `"A"` at 0 ms, fragment `"B"` at 50 ms, silence
afterwards. -/
def traceAB : List (Nat × ServerMessage) :=
  msgsOf [(0, "A".toList), (50, "B".toList)]

set_option maxRecDepth 8192 in
/-- C2: with fragments `"A"` and `"B"` 50 ms apart and silence afterwards,
nothing is emitted before 350 ms (i.e. before 300 ms have elapsed since
`"B"`), exactly the single event `"AB"` is emitted from 350 ms onwards, and
every non-blank fragment reschedules the idle flush to 300 ms after its own
arrival. -/
theorem idle_flush_timing :
    (∀ t, t < 350 → emittedUpTo traceAB t = []) ∧
    (∀ t, 350 ≤ t → emittedUpTo traceAB t = ["AB".toList]) ∧
    (∀ now f (s : AccState), 0 < (trim f).length →
      (handleServerMessage now (fragMsg f) s).textAccumulationTimer =
        some (now + IDLE_DELAY)) := by
  refine ⟨by decide, ?_, ?_⟩
  · intro t ht
    have h0 : decide ((0 : Nat) ≤ t) = true := decide_eq_true (Nat.zero_le t)
    have h50 : decide ((50 : Nat) ≤ t) = true := decide_eq_true (by omega)
    have hfil : traceAB.filter (fun p => decide (p.1 ≤ t)) = traceAB := by
      apply List.filter_eq_self.mpr
      intro a ha
      rcases List.mem_cons.mp ha with rfl | ha2
      · exact h0
      · rw [List.mem_singleton.mp ha2]
        exact h50
    show (run traceAB t).emitted = _
    unfold run
    rw [hfil]
    have hsteps : steps initialAccState traceAB =
        ⟨"AB".toList, some 350, [], []⟩ := by decide
    rw [hsteps]
    have hfire : fireIfDue t (⟨"AB".toList, some 350, [], []⟩ : AccState) =
        flushTimerFire ⟨"AB".toList, some 350, [], []⟩ := by
      unfold fireIfDue
      exact if_pos ht
    rw [hfire]
    decide
  · intro now f s hf
    rw [handleServerMessage_fragMsg now f s hf]

/-- C2 witness: the bound instantiated just before and at the flush time. -/
theorem idle_flush_timing_witness :
    emittedUpTo traceAB 349 = [] ∧ emittedUpTo traceAB 350 = ["AB".toList] :=
  ⟨idle_flush_timing.1 349 (by decide), idle_flush_timing.2.1 350 (by decide)⟩

/-- C6: a turn-complete message with no fragment leaves a blank-buffered
session unchanged (no event is emitted), and any string emitted by either
flush path — the message handler or the idle timer — that was not already in
the sink is non-empty after trimming. -/
theorem no_blank_events :
    (∀ now (s : AccState), trim s.accumulatedText = [] →
      handleServerMessage now (finalMsg none) s = s) ∧
    (∀ now (m : ServerMessage) (s : AccState),
      ∀ e ∈ (handleServerMessage now m s).emitted,
        e ∈ s.emitted ∨ 0 < (trim e).length) ∧
    (∀ s : AccState, ∀ e ∈ (flushTimerFire s).emitted,
      e ∈ s.emitted ∨ 0 < (trim e).length) := by
  refine ⟨?_, ?_, ?_⟩
  · intro now s hb
    unfold handleServerMessage
    simp [finalMsg, blankMsg, hb]
  · intro now m s e he
    unfold handleServerMessage at he
    cases hm : m.text with
    | none =>
      rw [hm] at he
      dsimp only [] at he
      split at he
      case isTrue hcond =>
        simp only [List.mem_append, List.mem_singleton] at he
        rcases he with he | rfl
        · exact Or.inl he
        · exact Or.inr (trim_trim_pos hcond.2)
      case isFalse => exact Or.inl he
    | some t =>
      rw [hm] at he
      dsimp only [] at he
      by_cases htr : 0 < (trim t).length
      · rw [if_pos htr] at he
        split at he
        next hcond =>
          simp only [List.mem_append, List.mem_singleton] at he
          rcases he with he | rfl
          · exact Or.inl he
          · exact Or.inr (trim_trim_pos hcond.2)
        next => exact Or.inl he
      · rw [if_neg htr] at he
        split at he
        next hcond =>
          simp only [List.mem_append, List.mem_singleton] at he
          rcases he with he | rfl
          · exact Or.inl he
          · exact Or.inr (trim_trim_pos hcond.2)
        next => exact Or.inl he
  · intro s e he
    unfold flushTimerFire at he
    split at he
    case isTrue hcond =>
      simp only [List.mem_append, List.mem_singleton] at he
      rcases he with he | rfl
      · exact Or.inl he
      · exact Or.inr (trim_trim_pos hcond)
    case isFalse => exact Or.inl he

/-- C6 witness: a blank buffer gets no event from a bare turn-complete
marker, and the emitted-events clauses instantiated on a concrete flush. -/
theorem no_blank_events_witness :
    handleServerMessage 0 (finalMsg none) initialAccState = initialAccState ∧
    (("A".toList : Str) ∈
        (handleServerMessage 7 (finalMsg (some "A".toList)) initialAccState).emitted →
      ("A".toList : Str) ∈ initialAccState.emitted ∨ 0 < (trim "A".toList).length) :=
  ⟨no_blank_events.1 0 initialAccState rfl,
   no_blank_events.2.1 7 (finalMsg (some "A".toList)) initialAccState "A".toList⟩

/-! ## Error-message extraction (part_005 `extractErrorMessage`) -/

/-- JS nullish coalescing `a ?? b ?? c` over optional string fields. -/
def firstPresent (a b c : Option Str) : Option Str :=
  match a with
  | some x => some x
  | none =>
    match b with
    | some x => some x
    | none => c

/-- One iteration of `extractErrorMessage`'s candidate loop: a falsy
candidate is skipped; a non-empty plain string is returned as is; otherwise
a non-blank `message ?? details ?? statusMessage` is returned trimmed, and
failing that a non-blank `code ?? status` yields `Gemini error (code)`. -/
def tryCandidate : Option ErrPayload → Option Str
  | none => none
  | some (.str s) => if s = [] then none else some s
  | some (.obj o) =>
    let m := firstPresent o.message o.details o.statusMessage
    let codePart :=
      match firstPresent o.code o.status none with
      | some c =>
        if 0 < (trim c).length then
          some ("Gemini error (".toList ++ trim c ++ ")".toList)
        else none
      | none => none
    match m with
    | some mm => if 0 < (trim mm).length then some (trim mm) else codePart
    | none => codePart

/-- The fixed, ordered candidate list tried by `extractErrorMessage`. -/
def errorCandidates (response : ServerMessage) : List (Option ErrPayload) :=
  [ response.error,
    response.serverError,
    response.serverContent.bind (fun sc => sc.error),
    (response.serverContent.bind (fun sc => sc.modelResponse)).bind
      (fun mr => mr.error),
    match (response.serverContent.bind (fun sc => sc.modelResponse)).bind
        (fun mr => mr.status) with
    | some st => if st.state = some "ERROR".toList then some st.payload else none
    | none => none,
    response.realtimeOutput.bind (fun ro => ro.error),
    (response.realtimeOutput.bind (fun ro => ro.modelResponse)).bind
      (fun mr => mr.error) ]

/-- `GeminiLiveSession.extractErrorMessage` (part_005): return the first
human-readable string extracted from the candidates, in order. -/
def extractErrorMessage (response : ServerMessage) : Option Str :=
  (errorCandidates response).findSome? tryCandidate

/-- An otherwise-valid inbound message carrying a plain-string error
payload in the first known shape. -/
def errMsgExample : ServerMessage :=
  { blankMsg with error := some (.str "quota exceeded".toList) }

/-- C4 counterexample: `handleServerMessage` never consults the embedded
error payload and never calls the onError sink — the extraction helper
would produce the string, yet handling the message reports nothing and
leaves the session state unchanged. -/
theorem error_payload_not_reported :
    extractErrorMessage errMsgExample = some "quota exceeded".toList ∧
    (handleServerMessage 0 errMsgExample initialAccState).errors = [] ∧
    handleServerMessage 0 errMsgExample initialAccState = initialAccState := by
  refine ⟨by decide, by decide, by decide⟩

/-- C4 (amended): the inbound handler reports nothing through the onError
sink — the error trace is unchanged by every inbound message and by the
idle flush — while the (never invoked) helper `extractErrorMessage` does
implement the fixed ordered shape list: a non-empty plain string is
returned as is, a non-blank `message` (or `details` when `message` is
absent) is returned trimmed, and otherwise a non-blank `code` yields
`Gemini error (code)`. -/
theorem extract_error_shapes :
    (∀ now (m : ServerMessage) (s : AccState),
      (handleServerMessage now m s).errors = s.errors) ∧
    (∀ s : AccState, (flushTimerFire s).errors = s.errors) ∧
    (∀ s1 : Str, s1 ≠ [] →
      extractErrorMessage { blankMsg with error := some (.str s1) } = some s1) ∧
    (∀ (o : ErrObj) m1, o.message = some m1 → 0 < (trim m1).length →
      extractErrorMessage { blankMsg with error := some (.obj o) } =
        some (trim m1)) ∧
    (∀ (o : ErrObj) d1, o.message = none → o.details = some d1 →
      0 < (trim d1).length →
      extractErrorMessage { blankMsg with error := some (.obj o) } =
        some (trim d1)) ∧
    (∀ (o : ErrObj) c1, o.message = none → o.details = none →
      o.statusMessage = none → o.code = some c1 → 0 < (trim c1).length →
      extractErrorMessage { blankMsg with error := some (.obj o) } =
        some ("Gemini error (".toList ++ trim c1 ++ ")".toList)) := by
  refine ⟨?_, ?_, ?_, ?_, ?_, ?_⟩
  · intro now m s
    unfold handleServerMessage
    cases hm : m.text with
    | none =>
      dsimp only []
      split <;> rfl
    | some t =>
      dsimp only []
      by_cases htr : 0 < (trim t).length
      · rw [if_pos htr]
        split <;> rfl
      · rw [if_neg htr]
        split <;> rfl
  · intro s
    unfold flushTimerFire
    split <;> rfl
  · intro s1 h
    unfold extractErrorMessage errorCandidates
    simp [blankMsg, tryCandidate, h]
  · intro o m1 hm hpos
    unfold extractErrorMessage errorCandidates
    simp [blankMsg, tryCandidate, firstPresent, hm, hpos]
  · intro o d1 hm hd hpos
    unfold extractErrorMessage errorCandidates
    simp [blankMsg, tryCandidate, firstPresent, hm, hd, hpos]
  · intro o c1 hm hd hsm hc hpos
    unfold extractErrorMessage errorCandidates
    simp [blankMsg, tryCandidate, firstPresent, hm, hd, hsm, hc, hpos]

/-- C4 amended-claim witness: a concrete plain-string payload is extracted
untouched by the helper. -/
theorem extract_error_shapes_witness :
    extractErrorMessage { blankMsg with error := some (.str "boom".toList) } =
      some "boom".toList :=
  extract_error_shapes.2.2.1 "boom".toList (by decide)

/-! ## Session lifecycle

Two implementations exist in the repository: the SDK-based session
(part_005, guarding on `this.session`) and the WebSocket-based session
(gemini.ts, guarding on `isConnecting` / `ws.readyState`).  Method calls
return the next state together with the list of observable effects. -/

/-- Connection status values reported to the onStatus sink. -/
inductive ConnState where
  | connecting
  | connected
  | disconnected
deriving DecidableEq

/-- Observable effects of a session method call. -/
inductive Eff where
  | status (st : ConnState)
  | handshake (model instruction : Str)
  | videoFrame (mimeType data : Str)
  | audioChunk (data : Str)
  | clientContent (text : Str) (turnComplete : Bool)
  | closeTransport
  | warn
deriving DecidableEq

/-- part_005 `GeminiLiveSession` connection-relevant state: whether
`this.session` is non-null, and the configuration. -/
structure GSession where
  sessionOpen : Bool
  systemInstruction : Str
  model : Str
deriving DecidableEq

/-- `connect()` (part_005), synchronous phase: the `if (this.session)` guard
and the initiation of `ai.live.connect`, which performs the setup/handshake.
`this.session` is assigned only when the returned promise resolves
(`connectResolve`), so it is still null while the attempt is in flight. -/
def connectBegin (s : GSession) : GSession × List Eff :=
  if s.sessionOpen then (s, [])
  else (s, [.status .connecting, .handshake s.model s.systemInstruction])

/-- Resolution of the `ai.live.connect` promise: `this.session` is assigned
and the `onopen` callback reports `connected`. -/
def connectResolve (s : GSession) : GSession × List Eff :=
  ({ s with sessionOpen := true }, [.status .connected])

/-- `sendVideoFrame` (part_005): dropped with a warning when no session
handle is present; otherwise transmitted immediately, never queued. -/
def sendVideoFrame (s : GSession) (mimeType data : Str) : GSession × List Eff :=
  if s.sessionOpen = false then (s, [.warn])
  else (s, [.videoFrame mimeType data])

/-- `sendAudioChunk` (part_005). -/
def sendAudioChunk (s : GSession) (audioData : Str) : GSession × List Eff :=
  if s.sessionOpen = false then (s, [.warn])
  else (s, [.audioChunk audioData])

/-- `sendTextPrompt` (part_005). -/
def sendTextPrompt (s : GSession) (text : Str) (turnComplete : Bool) :
    GSession × List Eff :=
  if s.sessionOpen = false then (s, [.warn])
  else (s, [.clientContent text turnComplete])

/-- The argument of `sendPrompt`: optional text and optional frame. -/
structure PromptContent where
  text : Option Str
  frame : Option (Str × Str)
deriving DecidableEq

/-- `sendPrompt` (part_005): frame content goes through the realtime path
and any accompanying text is sent as a separate text message. -/
def sendPrompt (s : GSession) (prompt : PromptContent) (turnComplete : Bool) :
    GSession × List Eff :=
  if s.sessionOpen = false then (s, [.warn])
  else
    match prompt.frame with
    | some fr =>
      let r1 := sendVideoFrame s fr.1 fr.2
      match prompt.text with
      | some t =>
        let r2 := sendTextPrompt r1.1 t turnComplete
        (r2.1, r1.2 ++ r2.2)
      | none => r1
    | none =>
      match prompt.text with
      | some t => sendTextPrompt s t turnComplete
      | none => (s, [])

/-- `updateSystemInstruction` (part_005): store the new instruction; if a
session handle is present, run `disconnect()` and schedule `connect()`
after 100 ms (the returned optional delay); otherwise nothing further
happens. -/
def updateSystemInstruction (instruction : Str) (s : GSession) :
    GSession × List Eff × Option Nat :=
  let s1 := { s with systemInstruction := instruction }
  if s1.sessionOpen then
    ({ s1 with sessionOpen := false }, [.closeTransport], some 100)
  else (s1, [], none)

/-- `disconnect()` (part_005): close and clear the handle if present. -/
def disconnect (s : GSession) : GSession × List Eff :=
  if s.sessionOpen then ({ s with sessionOpen := false }, [.closeTransport])
  else (s, [])

/-- `isConnected()` (part_005): `this.session !== null`. -/
def isConnected (s : GSession) : Bool := s.sessionOpen

/-- gemini.ts `GeminiLiveSession` state: whether the WebSocket is open, the
`isConnecting` guard flag, and the configuration. -/
structure WSession where
  wsOpen : Bool
  isConnecting : Bool
  systemInstruction : Str
  model : Str
deriving DecidableEq

/-- `connect()` (gemini.ts): a no-op when the socket is already open or an
attempt is in flight; otherwise sets `isConnecting` and opens the socket
(the handshake is sent only from `onopen`). -/
def connectWS (s : WSession) : WSession × List Eff :=
  if s.wsOpen then (s, [])
  else if s.isConnecting then (s, [])
  else ({ s with isConnecting := true }, [.status .connecting])

/-- `ws.onopen` (gemini.ts): clears `isConnecting`, reports `connected`,
and sends the one-time setup message (`sendSetup`). -/
def wsOnOpen (s : WSession) : WSession × List Eff :=
  ({ s with isConnecting := false, wsOpen := true },
   [.status .connected, .handshake s.model s.systemInstruction])

/-- `sendVideoFrame` (gemini.ts): dropped with a warning unless the socket
is open. -/
def sendVideoFrameWS (s : WSession) (mimeType data : Str) :
    WSession × List Eff :=
  if s.wsOpen = false then (s, [.warn])
  else (s, [.videoFrame mimeType data])

/-- The number of setup/handshake messages among the observed effects. -/
def countHandshakes (effs : List Eff) : Nat :=
  (effs.filter (fun e => match e with
    | .handshake _ _ => true
    | _ => false)).length

/-- A fresh, never-connected SDK session. -/
def freshG : GSession :=
  ⟨false, "describe the video".toList, "gemini-2.0-flash-live-001".toList⟩

/-- C3 counterexample: on the SDK session a second `connect()` issued while
the first attempt is still in flight (`this.session` not yet assigned)
initiates a second handshake, so `connect()` is not idempotent while in the
connecting state. -/
theorem double_connect_two_handshakes :
    countHandshakes ((connectBegin freshG).2 ++
      (connectBegin (connectBegin freshG).1).2) = 2 := by decide

/-- C3 (amended): `connect()` is a no-op once connected in both
implementations; while an attempt is in flight the WebSocket implementation
is also a no-op (its `isConnecting` guard), so a double `connect()` from a
fresh WebSocket session yields exactly one handshake — whereas the SDK
implementation guards only on the session handle, which is still null
during the in-flight attempt. -/
theorem connect_idempotency :
    (∀ s : GSession, s.sessionOpen = true → connectBegin s = (s, [])) ∧
    (∀ s : WSession, s.wsOpen = true ∨ s.isConnecting = true →
      connectWS s = (s, [])) ∧
    (∀ s : WSession, s.wsOpen = false → s.isConnecting = false →
      countHandshakes ((connectWS s).2 ++ (connectWS (connectWS s).1).2 ++
        (wsOnOpen (connectWS (connectWS s).1).1).2) = 1) := by
  refine ⟨?_, ?_, ?_⟩
  · intro s h
    simp [connectBegin, h]
  · intro s h
    rcases h with h | h
    · simp [connectWS, h]
    · by_cases hw : s.wsOpen = true
      · simp [connectWS, hw]
      · simp at hw
        simp [connectWS, hw, h]
  · intro s h1 h2
    simp [connectWS, wsOnOpen, countHandshakes, h1, h2]

/-- C3 witness: the amended statement instantiated on concrete sessions. -/
theorem connect_idempotency_witness :
    connectBegin ⟨true, "i".toList, "m".toList⟩ =
      (⟨true, "i".toList, "m".toList⟩, []) ∧
    countHandshakes ((connectWS ⟨false, false, "i".toList, "m".toList⟩).2 ++
      (connectWS (connectWS ⟨false, false, "i".toList, "m".toList⟩).1).2 ++
      (wsOnOpen (connectWS
        (connectWS ⟨false, false, "i".toList, "m".toList⟩).1).1).2) = 1 :=
  ⟨connect_idempotency.1 ⟨true, "i".toList, "m".toList⟩ rfl,
   connect_idempotency.2.2 ⟨false, false, "i".toList, "m".toList⟩ rfl rfl⟩

/-- C5: `sendVideoFrame` before connection (no session handle, socket not
open) transmits nothing, does not throw, only warns, leaves the state
unchanged, and queues nothing — in both implementations. -/
theorem drop_before_connect :
    (∀ (s : GSession) mimeType data, s.sessionOpen = false →
      sendVideoFrame s mimeType data = (s, [.warn])) ∧
    (∀ (s : WSession) mimeType data, s.wsOpen = false →
      sendVideoFrameWS s mimeType data = (s, [.warn])) := by
  constructor
  · intro s mt d h
    simp [sendVideoFrame, h]
  · intro s mt d h
    simp [sendVideoFrameWS, h]

/-- C5 witness: a concrete frame sent on a fresh session is dropped. -/
theorem drop_before_connect_witness :
    sendVideoFrame freshG "image/jpeg".toList "AAAA".toList =
      (freshG, [.warn]) :=
  drop_before_connect.1 freshG "image/jpeg".toList "AAAA".toList rfl

/-- A disconnected SDK session holding an old instruction. -/
def idleG : GSession := ⟨false, "old instruction".toList, "m".toList⟩

/-- C7 counterexample: on a session with no live handle,
`updateSystemInstruction` stores the new instruction but neither
disconnects nor schedules any reconnect, so the call does not force a
reconnect for every session. -/
theorem update_instruction_no_reconnect :
    (updateSystemInstruction "new".toList idleG).2.2 = none ∧
    (updateSystemInstruction "new".toList idleG).2.1 = [] ∧
    (updateSystemInstruction "new".toList idleG).1.systemInstruction =
      "new".toList := ⟨rfl, rfl, rfl⟩

/-- C7 (amended): `updateSystemInstruction` always replaces the stored
instruction; when a session handle is present it disconnects (closing the
transport and clearing the handle) and schedules `connect()` on a 100 ms
delay; when no handle is present nothing further happens and the new
instruction takes effect on the next connect. -/
theorem update_instruction_reconnect :
    (∀ instruction (s : GSession),
      (updateSystemInstruction instruction s).1.systemInstruction =
        instruction) ∧
    (∀ instruction (s : GSession), s.sessionOpen = true →
      updateSystemInstruction instruction s =
        ({ s with systemInstruction := instruction, sessionOpen := false },
         [.closeTransport], some 100)) ∧
    (∀ instruction (s : GSession), s.sessionOpen = false →
      updateSystemInstruction instruction s =
        ({ s with systemInstruction := instruction }, [], none)) := by
  refine ⟨?_, ?_, ?_⟩
  · intro instruction s
    unfold updateSystemInstruction
    dsimp only []
    split <;> rfl
  · intro instruction s h
    simp [updateSystemInstruction, h]
  · intro instruction s h
    simp [updateSystemInstruction, h]

/-- A connected SDK session holding an old instruction. -/
def liveG : GSession := ⟨true, "old instruction".toList, "m".toList⟩

/-- C7 witness: the amended statement on a concrete connected session. -/
theorem update_instruction_reconnect_witness :
    updateSystemInstruction "new".toList liveG =
      ({ liveG with systemInstruction := "new".toList, sessionOpen := false },
       [.closeTransport], some 100) :=
  update_instruction_reconnect.2.1 "new".toList liveG rfl

/-- C8: after `disconnect()` the handle is cleared and `isConnected` is
false; every subsequent `sendVideoFrame`, `sendAudioChunk` or `sendPrompt`
is a warning-only no-op that transmits nothing, and a second `disconnect()`
does nothing. -/
theorem disconnect_clears_session (s : GSession) :
    isConnected (disconnect s).1 = false ∧
    (∀ mimeType data, sendVideoFrame (disconnect s).1 mimeType data =
      ((disconnect s).1, [.warn])) ∧
    (∀ audioData, sendAudioChunk (disconnect s).1 audioData =
      ((disconnect s).1, [.warn])) ∧
    (∀ prompt turnComplete, sendPrompt (disconnect s).1 prompt turnComplete =
      ((disconnect s).1, [.warn])) ∧
    disconnect (disconnect s).1 = ((disconnect s).1, []) := by
  have key : ∀ u : GSession, u.sessionOpen = false →
      isConnected u = false ∧
      (∀ mimeType data, sendVideoFrame u mimeType data = (u, [.warn])) ∧
      (∀ audioData, sendAudioChunk u audioData = (u, [.warn])) ∧
      (∀ prompt turnComplete, sendPrompt u prompt turnComplete =
        (u, [.warn])) ∧
      disconnect u = (u, []) := by
    intro u hu
    refine ⟨by simp [isConnected, hu], ?_, ?_, ?_, by simp [disconnect, hu]⟩
    · intro mt d
      simp [sendVideoFrame, hu]
    · intro a
      simp [sendAudioChunk, hu]
    · intro p tc
      simp [sendPrompt, hu]
  have hopen : (disconnect s).1.sessionOpen = false := by
    unfold disconnect
    split
    · rfl
    · next h => simpa using h
  exact key (disconnect s).1 hopen

/-! ## PCM sample conversion (VideoRecorder, part_001) -/

/-- One sample conversion step from the `onaudioprocess` handlers
(microphone capture and silent-source generation): clamp the float sample
to [-1, 1], then scale by 0x8000 when negative and by 0x7FFF otherwise. -/
def pcmSample (x : ℚ) : ℚ :=
  let s := max (-1) (min 1 x)
  if s < 0 then s * 0x8000 else s * 0x7FFF

/-- A JS `Int16Array` store truncates its value toward zero. -/
def jsTrunc (q : ℚ) : ℤ := if 0 ≤ q then ⌊q⌋ else ⌈q⌉

/-- C9: for every input sample, the converted value lies in
[-32768, 32767], before and after the 16-bit integer store, so no overflow
or wrap-around occurs. -/
theorem pcm_sample_in_range (x : ℚ) :
    -32768 ≤ pcmSample x ∧ pcmSample x ≤ 32767 ∧
    -32768 ≤ jsTrunc (pcmSample x) ∧ jsTrunc (pcmSample x) ≤ 32767 := by
  have hs1 : (-1 : ℚ) ≤ max (-1) (min 1 x) := le_max_left _ _
  have hs2 : max (-1) (min 1 x) ≤ 1 := max_le (by norm_num) (min_le_left _ _)
  have hlo : -32768 ≤ pcmSample x := by
    unfold pcmSample
    dsimp only []
    split
    · nlinarith
    · nlinarith
  have hhi : pcmSample x ≤ 32767 := by
    unfold pcmSample
    dsimp only []
    split
    · nlinarith
    · nlinarith
  refine ⟨hlo, hhi, ?_, ?_⟩
  · unfold jsTrunc
    split
    · exact Int.le_floor.mpr (by push_cast; linarith)
    · exact le_trans (Int.le_floor.mpr (by push_cast; linarith))
        (Int.floor_le_ceil _)
  · unfold jsTrunc
    split
    · have : ⌊pcmSample x⌋ < 32768 := Int.floor_lt.mpr (by push_cast; linarith)
      omega
    · exact Int.ceil_le.mpr (by push_cast; linarith)

/-! ## TTS rate clamping (storage.svelte.ts) -/

/-- The reactive preference state holding the TTS rate. -/
structure StorageState where
  ttsRate : ℚ
deriving DecidableEq

/-- `setTTSRate`: clamp the new rate to [0.5, 2.0] and store it. -/
def setTTSRate (newRate : ℚ) (st : StorageState) : StorageState :=
  { st with ttsRate := min (max newRate 0.5) 2.0 }

/-- `getTTSRate`: return the stored reactive value. -/
def getTTSRate (st : StorageState) : ℚ := st.ttsRate

/-- `getTTSRateFromStorage`: a stored value read and parsed at startup is
clamped the same way; a missing value yields the default rate 1.0. -/
def getTTSRateFromStorage (stored : Option ℚ) : ℚ :=
  match stored with
  | some parsed => min (max parsed 0.5) 2.0
  | none => 1.0

/-- C10: `setTTSRate` stores the clamp of its argument, `getTTSRate`
returns it, the result always lies in [0.5, 2.0], and the startup load
clamps identically. -/
theorem tts_rate_clamped (r : ℚ) (st : StorageState) :
    getTTSRate (setTTSRate r st) = min (max r 0.5) 2.0 ∧
    0.5 ≤ getTTSRate (setTTSRate r st) ∧
    getTTSRate (setTTSRate r st) ≤ 2.0 ∧
    getTTSRateFromStorage (some r) = min (max r 0.5) 2.0 ∧
    0.5 ≤ getTTSRateFromStorage (some r) ∧
    getTTSRateFromStorage (some r) ≤ 2.0 ∧
    getTTSRateFromStorage none = 1.0 := by
  have h1 : (0.5 : ℚ) ≤ min (max r 0.5) 2.0 :=
    le_min (le_max_right r 0.5) (by norm_num)
  have h2 : min (max r 0.5) 2.0 ≤ (2.0 : ℚ) := min_le_right _ _
  exact ⟨rfl, h1, h2, rfl, h1, h2, rfl⟩

end Descam
